import Mathlib

/-!
Verification of the Jump King Frame Trainer core (src/src-tauri/src/main.rs)
against its natural-language specification.

The Rust source is shallowly embedded: machine integers are modelled as
`Int`/`Nat` with explicit saturation/wraparound where the Rust casts have it,
timestamps and elapsed milliseconds are modelled as `Rat` (the source uses
`f64`; all quantities of interest are exact at the rationals used here),
and the side effects of each thread body (HUD event emission, audio-command
enqueue) are returned as explicit lists.
-/

namespace JKFT

/-- Embeds `enum Zone` (main.rs lines 36-43): the six charge-intensity zones. -/
inductive Zone where
  | none
  | tap
  | small
  | mid
  | large
  | full
deriving DecidableEq, Repr

/-- Embeds `fn get_zone(frame: u32) -> Zone` (main.rs lines 45-54).
The Rust `match` arms `36.. / 25..=35 / 14..=24 / 8..=13 / 1..=7 / _` are
translated to the equivalent cascade of range tests, checked in the same
order as the match arms. -/
def get_zone (frame : Nat) : Zone :=
  if 36 ≤ frame then Zone.full
  else if 25 ≤ frame ∧ frame ≤ 35 then Zone.large
  else if 14 ≤ frame ∧ frame ≤ 24 then Zone.mid
  else if 8 ≤ frame ∧ frame ≤ 13 then Zone.small
  else if 1 ≤ frame ∧ frame ≤ 7 then Zone.tap
  else Zone.none

/-- The zone map as the specification words it (§4.1 of the spec): boundary
thresholds listed top-down. Used only to compare against `get_zone`. -/
def zone_of_spec (frame : Nat) : Zone :=
  if frame = 0 then Zone.none
  else if frame ≤ 7 then Zone.tap
  else if frame ≤ 13 then Zone.small
  else if frame ≤ 24 then Zone.mid
  else if frame ≤ 35 then Zone.large
  else Zone.full

/-- C1: the zone classifier is total and boundary-exact: it agrees with the
spec's threshold table at every frame, in particular at all the listed
boundary values. -/
theorem get_zone_spec :
    (∀ frame : Nat, get_zone frame = zone_of_spec frame) ∧
    get_zone 0 = Zone.none ∧ get_zone 1 = Zone.tap ∧ get_zone 7 = Zone.tap ∧
    get_zone 8 = Zone.small ∧ get_zone 13 = Zone.small ∧
    get_zone 14 = Zone.mid ∧ get_zone 24 = Zone.mid ∧
    get_zone 25 = Zone.large ∧ get_zone 35 = Zone.large ∧
    get_zone 36 = Zone.full ∧ get_zone 1000 = Zone.full := by
  refine ⟨fun frame => ?_, ?_, ?_, ?_, ?_, ?_, ?_, ?_, ?_, ?_, ?_, ?_⟩
  · unfold get_zone zone_of_spec
    split_ifs <;> first | rfl | omega
  all_goals decide

/-- Embeds `struct HoldState` (main.rs lines 59-66). `start` is an
`Option Rat` timestamp in milliseconds (the source stores an `Instant`);
`last_frame` is an `i32` modelled as `Int`. -/
structure HoldState where
  holding : Bool
  start : Option Rat
  last_frame : Int
  last_zone : Zone
  played_30f : Bool
deriving DecidableEq, Repr

/-- Embeds `impl Default for HoldState` (main.rs lines 68-78). -/
def HoldState.default : HoldState :=
  { holding := false
    start := Option.none
    last_frame := -1
    last_zone := Zone.none
    played_30f := false }

/-- Embeds `enum AudioCmd` / `AudioCmd::Beep { freq, ms }` (main.rs lines 80-82). -/
structure AudioCmd where
  freq : Nat
  ms : Nat
deriving DecidableEq, Repr

/-- The two HUD events emitted by the core, with their `Payload { frame: u32 }`
(main.rs lines 19-22 and 111-117): `hud-progress` and `hud-update`. -/
inductive HudEvent where
  | progress (frame : Nat)
  | update (frame : Nat)
deriving DecidableEq, Repr

/-- Embeds `const FRAME_MS: f64 = 1000.0 / 60.0` (main.rs line 130). -/
def FRAME_MS : Rat := 1000 / 60

/-- Largest `i32` value, the saturation bound of Rust's `f64 as i32` cast. -/
def i32max : Int := 2 ^ 31 - 1

/-- Embeds `(elapsed_ms / FRAME_MS).floor() as i32` (main.rs lines 139-140)
for the non-negative elapsed times an `Instant` can produce: `f64::floor`
followed by the saturating float-to-int cast. -/
def frameI32 (elapsed_ms : Rat) : Int :=
  min ⌊elapsed_ms / FRAME_MS⌋ i32max

/-- Embeds the Rust `i32 as u32` cast (main.rs line 144): reinterpretation of
the two's-complement bit pattern, i.e. reduction mod 2^32. -/
def castI32toU32 (n : Int) : Nat :=
  (n % 2 ^ 32).toNat

/-- Largest `u32` value, the saturation bound of Rust's `f64 as u32` cast. -/
def u32max : Nat := 2 ^ 32 - 1

/-- Embeds `(elapsed_ms / (1000.0 / 60.0)).round() as u32` (main.rs lines
223-224 and 280-281): `f64::round` is round-half-away-from-zero, which for the
non-negative elapsed times at hand equals `⌊x + 1/2⌋`; `as u32` saturates
(negatives to 0, handled by `Int.toNat`; large values to `u32max`). -/
def final_frame (elapsed_ms : Rat) : Nat :=
  min (⌊elapsed_ms / FRAME_MS + 1 / 2⌋.toNat) u32max

/-- The zone → cue mapping of the frame loop's `match zone` (main.rs lines
154-171): `Zone::None` queues nothing. -/
def zoneCue : Zone → Option AudioCmd
  | Zone.tap => some ⟨220, 40⟩
  | Zone.small => some ⟨260, 40⟩
  | Zone.mid => some ⟨300, 40⟩
  | Zone.large => some ⟨340, 40⟩
  | Zone.full => some ⟨420, 60⟩
  | Zone.none => Option.none

/-- The threshold cue `AudioCmd::Beep { freq: 350, ms: 80 }` (main.rs line 181). -/
def thresholdCue : AudioCmd := ⟨350, 80⟩

/-- Result of one body of a thread's loop: the updated shared `HoldState`,
the HUD events emitted, and the audio commands sent on `audio_tx`, in order. -/
structure TickOut where
  state : HoldState
  events : List HudEvent
  audio : List AudioCmd
deriving DecidableEq, Repr

/-- Embeds the `frame_u >= 30 && !s.played_30f` block of the frame loop
(main.rs lines 176-183), reached only when the muted zone-change branch did
not `continue` past it. Takes the events/audio accumulated earlier in the
iteration so the iteration's outputs stay in source order. -/
def threshold_step (muted : Bool) (frame_u : Nat) (s : HoldState)
    (evs : List HudEvent) (aud : List AudioCmd) : TickOut :=
  if 30 ≤ frame_u ∧ s.played_30f = false then
    if muted then
      ⟨{ s with played_30f := true }, evs, aud⟩
    else
      ⟨{ s with played_30f := true }, evs, aud ++ [thresholdCue]⟩
  else
    ⟨s, evs, aud⟩

/-- Embeds one iteration of the frame-sampling loop `start_frame_loop`
(main.rs lines 132-189). `muted` is the value read from the
`HudControlState` lock during this iteration; `elapsed_ms` is
`start.elapsed()` in milliseconds at this iteration. The Rust `continue` in
the muted zone-change branch (line 152) ends the iteration, skipping the
threshold block — that is modelled by returning there. -/
def frame_loop_tick (muted : Bool) (elapsed_ms : Rat) (s : HoldState) : TickOut :=
  if s.holding then
    match s.start with
    | Option.none => ⟨s, [], []⟩
    | some _ =>
      let frame : Int := frameI32 elapsed_ms
      if frame ≠ s.last_frame ∧ 0 ≤ frame then
        let s1 : HoldState := { s with last_frame := frame }
        let frame_u : Nat := castI32toU32 frame
        let evs : List HudEvent := [HudEvent.progress frame_u]
        let zone : Zone := get_zone frame_u
        if zone ≠ s1.last_zone then
          if muted then
            ⟨{ s1 with last_zone := zone }, evs, []⟩
          else
            threshold_step muted frame_u { s1 with last_zone := zone } evs
              (zoneCue zone).toList
        else
          threshold_step muted frame_u s1 evs []
      else
        ⟨s, [], []⟩
  else
    ⟨s, [], []⟩

/-- Embeds the press handler body shared verbatim by the keyboard listener's
`EventType::KeyPress(Key::Space)` arm (main.rs lines 206-215) and the gamepad
listener's `ButtonPressed(South)` arm (main.rs lines 263-272): start a hold
unless one is active. `now` is `Instant::now()` in milliseconds. Presses emit
no HUD event and queue no audio. -/
def press_action (now : Rat) (s : HoldState) : HoldState :=
  if s.holding then s
  else
    { holding := true
      start := some now
      last_frame := -1
      last_zone := Zone.none
      played_30f := false }

/-- Embeds the release handler body shared verbatim by the keyboard listener's
`EventType::KeyRelease(Key::Space)` arm (main.rs lines 217-237) and the
gamepad listener's `ButtonReleased(South)` arm (main.rs lines 274-294):
if holding, emit the terminal `hud-update` with the rounded final frame,
queue the 600 Hz/100 ms release cue unless muted, then reset the state
(note: `played_30f` is not reset here — only at press). -/
def release_action (now : Rat) (muted : Bool) (s : HoldState) : TickOut :=
  if s.holding then
    let out : List HudEvent × List AudioCmd :=
      match s.start with
      | some start =>
        let elapsed_ms : Rat := now - start
        let frame : Nat := final_frame elapsed_ms
        ([HudEvent.update frame], if muted then [] else [⟨600, 100⟩])
      | Option.none => ([], [])
    ⟨{ s with holding := false, start := Option.none, last_frame := -1,
              last_zone := Zone.none },
      out.1, out.2⟩
  else
    ⟨s, [], []⟩

/-- The `rdev` key alphabet as seen by the keyboard listener: `Key::Space`
or any other key. -/
inductive RKey where
  | space
  | otherKey
deriving DecidableEq, Repr

/-- The `rdev` mouse-button alphabet: `Button::Left` or any other button. -/
inductive RButton where
  | left
  | otherButton
deriving DecidableEq, Repr

/-- The `rdev::EventType` alphabet delivered to the keyboard listener's
callback by `listen` — `rdev` reports keyboard AND mouse events on the same
stream (key press/release, mouse-button press/release, mouse move, wheel). -/
inductive RdevEventType where
  | keyPress (k : RKey)
  | keyRelease (k : RKey)
  | buttonPress (b : RButton)
  | buttonRelease (b : RButton)
  | mouseMove
  | wheel
deriving DecidableEq, Repr

/-- Embeds the keyboard listener's callback `match event.event_type`
(main.rs lines 204-241): only `KeyPress(Key::Space)` and
`KeyRelease(Key::Space)` act; every other event — including mouse-button
presses and releases — falls into the `_ => {}` arm. -/
def keyboard_callback (now : Rat) (muted : Bool) (ev : RdevEventType)
    (s : HoldState) : TickOut :=
  match ev with
  | RdevEventType.keyPress RKey.space => ⟨press_action now s, [], []⟩
  | RdevEventType.keyRelease RKey.space => release_action now muted s
  | _ => ⟨s, [], []⟩

/-- The `gilrs` button alphabet: `Button::South` or any other button. -/
inductive GButton where
  | south
  | otherButton
deriving DecidableEq, Repr

/-- The `gilrs` event alphabet seen by the gamepad listener's loop. -/
inductive GilEventType where
  | buttonPressed (b : GButton)
  | buttonReleased (b : GButton)
  | otherEvent
deriving DecidableEq, Repr

/-- Embeds the gamepad listener's `match ev.event` (main.rs lines 261-297):
only `ButtonPressed(South)` and `ButtonReleased(South)` act. -/
def gamepad_callback (now : Rat) (muted : Bool) (ev : GilEventType)
    (s : HoldState) : TickOut :=
  match ev with
  | GilEventType.buttonPressed GButton.south => ⟨press_action now s, [], []⟩
  | GilEventType.buttonReleased GButton.south => release_action now muted s
  | _ => ⟨s, [], []⟩

/-- The kinds of worker threads the program could spawn; `mouseListener` is
listed so that its absence from `spawned_threads` is statable. -/
inductive ThreadKind where
  | audioWorker
  | frameLoop
  | keyboardListener
  | gamepadListener
  | mouseListener
deriving DecidableEq, Repr

/-- Embeds the thread spawns performed during `main`'s setup (main.rs lines
348-352), in order: `start_audio_thread`, `start_frame_loop`,
`start_keyboard_listener`, `start_gamepad_listener`. No dedicated
mouse-button listener is spawned. -/
def spawned_threads : List ThreadKind :=
  [ThreadKind.audioWorker, ThreadKind.frameLoop,
   ThreadKind.keyboardListener, ThreadKind.gamepadListener]

/-- Status of one spawned thread after startup settles. -/
inductive ThreadStatus where
  | running
  | dead
deriving DecidableEq, Repr

/-- Embeds `start_audio_thread` (main.rs lines 87-106) with Rust's panic
semantics for spawned threads: `OutputStream::try_default().expect(...)` runs
INSIDE `thread::spawn`, so when audio-device initialization fails the panic
unwinds and terminates only that spawned thread; it does not propagate to the
thread that called `start_audio_thread`. -/
def start_audio_thread (audioInitOk : Bool) : ThreadStatus :=
  if audioInitOk then ThreadStatus.running else ThreadStatus.dead

/-- Process state after `main`'s setup closure (main.rs lines 344-355). -/
structure ProcessAfterStartup where
  processAlive : Bool
  audioThread : ThreadStatus
  frameLoopThread : ThreadStatus
  keyboardThread : ThreadStatus
  gamepadThread : ThreadStatus
deriving DecidableEq, Repr

/-- Embeds `main`'s setup (main.rs lines 344-355) as a function of whether
audio-device initialization succeeds: `start_audio_thread` only spawns a
thread and returns immediately, the setup closure then spawns the remaining
threads and returns `Ok(())` unconditionally, so the process survives startup
whatever the audio init outcome. -/
def startup (audioInitOk : Bool) : ProcessAfterStartup :=
  { processAlive := true
    audioThread := start_audio_thread audioInitOk
    frameLoopThread := ThreadStatus.running
    keyboardThread := ThreadStatus.running
    gamepadThread := ThreadStatus.running }

/-- The hold state right after a press from idle at time `t0`
(what `press_action t0` produces on a non-holding state). -/
def hold_start (t0 : Rat) : HoldState :=
  { holding := true
    start := some t0
    last_frame := -1
    last_zone := Zone.none
    played_30f := false }

/-- One sampling tick's inputs: the muted flag read this iteration and the
elapsed milliseconds since the hold's start at this iteration. -/
structure TickIn where
  muted : Bool
  elapsed : Rat
deriving DecidableEq, Repr

/-- Result of running a sequence of frame-loop iterations. -/
structure RunOut where
  state : HoldState
  events : List HudEvent
  audio : List AudioCmd
deriving DecidableEq, Repr

/-- Runs the frame-sampling loop over a list of ticks, threading the shared
`HoldState` and concatenating the emitted events and queued audio in order. -/
def run_ticks (s : HoldState) : List TickIn → RunOut
  | [] => ⟨s, [], []⟩
  | t :: rest =>
    let out := frame_loop_tick t.muted t.elapsed s
    let r := run_ticks out.state rest
    ⟨r.state, out.events ++ r.events, out.audio ++ r.audio⟩

/-- Number of threshold cues (350 Hz / 80 ms) in a queued-audio list. -/
def countThr (aud : List AudioCmd) : Nat :=
  aud.countP (fun c => c = thresholdCue)

/-- Whether one frame-loop iteration queued the threshold cue. -/
def thrSent (out : TickOut) : Bool :=
  decide (thresholdCue ∈ out.audio)

/-- Whether a tick observes a new frame count of at least 30 while unmuted —
the loop's notion of observing frame ≥ 30, since the inner block only runs
when the sampled frame differs from `last_frame`. -/
def qualifies (t : TickIn) (s : HoldState) : Bool :=
  decide (frameI32 t.elapsed ≠ s.last_frame ∧ 0 ≤ frameI32 t.elapsed ∧
    30 ≤ castI32toU32 (frameI32 t.elapsed)) && !t.muted

/-- Whether some tick of the list, run from `s`, observes a new frame that is
at least 30 while unmuted. -/
def existsQualifying (s : HoldState) : List TickIn → Bool
  | [] => false
  | t :: rest =>
    qualifies t s
    || existsQualifying (frame_loop_tick t.muted t.elapsed s).state rest

/-- The frames carried by the `hud-progress` events of an event list. -/
def progress_frames (evs : List HudEvent) : List Nat :=
  evs.filterMap fun
    | HudEvent.progress f => some f
    | HudEvent.update _ => Option.none

/-- The full HUD event stream of one hold: press at `t0` (emits nothing),
the sampling ticks while held, then the release at time `t_rel` handled by a
listener with mute flag `muted`. -/
def hold_events (t0 : Rat) (ticks : List TickIn) (t_rel : Rat)
    (muted : Bool) : List HudEvent :=
  let r := run_ticks (hold_start t0) ticks
  r.events ++ (release_action t_rel muted r.state).events

/-! Helper lemmas about a single frame-loop iteration. -/

/-- A tick mutates `holding` never. -/
lemma tick_holding (m : Bool) (e : Rat) (s : HoldState) :
    (frame_loop_tick m e s).state.holding = s.holding := by
  unfold frame_loop_tick threshold_step
  dsimp only
  repeat' split
  all_goals rfl

/-- A tick mutates `start` never. -/
lemma tick_start (m : Bool) (e : Rat) (s : HoldState) :
    (frame_loop_tick m e s).state.start = s.start := by
  unfold frame_loop_tick threshold_step
  dsimp only
  repeat' split
  all_goals rfl

/-- A tick never clears `played_30f`. -/
lemma tick_played_mono (m : Bool) (e : Rat) (s : HoldState)
    (h : s.played_30f = true) :
    (frame_loop_tick m e s).state.played_30f = true := by
  unfold frame_loop_tick threshold_step
  dsimp only
  repeat' split
  all_goals simp_all

/-- The condition under which a tick enters the inner block (main.rs line
142): holding, with a start timestamp, a changed frame, and `frame >= 0`. -/
def processed (e : Rat) (s : HoldState) : Prop :=
  s.holding = true ∧ s.start.isSome = true ∧
    frameI32 e ≠ s.last_frame ∧ 0 ≤ frameI32 e

instance (e : Rat) (s : HoldState) : Decidable (processed e s) := by
  unfold processed
  infer_instance

/-- A tick that does not enter the inner block is a complete no-op. -/
lemma tick_of_not_processed (m : Bool) (e : Rat) (s : HoldState)
    (h : ¬ processed e s) : frame_loop_tick m e s = ⟨s, [], []⟩ := by
  unfold processed at h
  unfold frame_loop_tick
  dsimp only
  split
  · rename_i hh
    cases hst : s.start with
    | none => rfl
    | some t =>
      rw [if_neg]
      intro hc
      exact h ⟨hh, by simp [hst], hc.1, hc.2⟩
  · rfl

/-- A processed tick emits exactly one `hud-progress` event, carrying the
`u32` cast of the sampled frame. -/
lemma tick_processed_events (m : Bool) (e : Rat) (s : HoldState)
    (h : processed e s) :
    (frame_loop_tick m e s).events =
      [HudEvent.progress (castI32toU32 (frameI32 e))] := by
  obtain ⟨hh, hst, hne, hnn⟩ := h
  obtain ⟨t, ht⟩ := Option.isSome_iff_exists.mp hst
  unfold frame_loop_tick threshold_step
  dsimp only
  rw [hh, ht]
  simp only [if_pos (And.intro hne hnn)]
  repeat' split
  all_goals simp_all

/-- A processed tick records the sampled frame in `last_frame`. -/
lemma tick_processed_last_frame (m : Bool) (e : Rat) (s : HoldState)
    (h : processed e s) :
    (frame_loop_tick m e s).state.last_frame = frameI32 e := by
  obtain ⟨hh, hst, hne, hnn⟩ := h
  obtain ⟨t, ht⟩ := Option.isSome_iff_exists.mp hst
  unfold frame_loop_tick threshold_step
  dsimp only
  rw [hh, ht]
  simp only [if_pos (And.intro hne hnn)]
  repeat' split
  all_goals simp_all

/-- No zone cue is the threshold cue. -/
lemma countThr_zoneCue (z : Zone) : countThr (zoneCue z).toList = 0 := by
  cases z <;> decide

/-- The threshold cue is not among the zone cues. -/
lemma thr_not_mem_zoneCue (z : Zone) : thresholdCue ∉ (zoneCue z).toList := by
  cases z <;> decide

/-- No zone has the threshold cue as its zone cue. -/
lemma zoneCue_ne_thr (z : Zone) : zoneCue z ≠ some thresholdCue := by
  cases z <;> decide

/-- `countThr` distributes over concatenation. -/
lemma countThr_append (a b : List AudioCmd) :
    countThr (a ++ b) = countThr a + countThr b := by
  unfold countThr
  exact List.countP_append _ _ _

/-- `countThr` of the empty queue. -/
lemma countThr_nil : countThr [] = 0 := rfl

/-- `countThr` of a lone threshold cue. -/
lemma countThr_single_thr : countThr [thresholdCue] = 1 := by decide

/-- One tick queues the threshold cue at most once. -/
lemma tick_countThr_le_one (m : Bool) (e : Rat) (s : HoldState) :
    countThr (frame_loop_tick m e s).audio ≤ 1 := by
  unfold frame_loop_tick threshold_step
  dsimp only
  repeat' split
  all_goals
    simp [countThr_append, countThr_zoneCue, countThr_nil, countThr_single_thr]

/-- Once `played_30f` is set, a tick queues no threshold cue. -/
lemma tick_countThr_of_played (m : Bool) (e : Rat) (s : HoldState)
    (h : s.played_30f = true) :
    countThr (frame_loop_tick m e s).audio = 0 := by
  unfold frame_loop_tick threshold_step
  dsimp only
  repeat' split
  all_goals
    simp_all [countThr_append, countThr_zoneCue, countThr_nil,
      countThr_single_thr]

/-- A tick that queues the threshold cue leaves `played_30f` set. -/
lemma tick_thrSent_played (m : Bool) (e : Rat) (s : HoldState)
    (h : thrSent (frame_loop_tick m e s) = true) :
    (frame_loop_tick m e s).state.played_30f = true := by
  unfold thrSent at h
  rw [decide_eq_true_iff] at h
  revert h
  unfold frame_loop_tick threshold_step
  dsimp only
  repeat' split
  all_goals intro h
  all_goals simp_all [thr_not_mem_zoneCue, zoneCue_ne_thr]

/-- A tick that queues the threshold cue was a qualifying observation on a
state with the cue still unplayed. -/
lemma tick_thrSent_qualifies (m : Bool) (e : Rat) (s : HoldState)
    (h : thrSent (frame_loop_tick m e s) = true) :
    processed e s ∧ 30 ≤ castI32toU32 (frameI32 e) ∧ m = false ∧
      s.played_30f = false := by
  unfold thrSent at h
  rw [decide_eq_true_iff] at h
  revert h
  unfold processed
  unfold frame_loop_tick threshold_step
  dsimp only
  repeat' split
  all_goals intro h
  all_goals simp_all [thr_not_mem_zoneCue, zoneCue_ne_thr]

/-- A qualifying unmuted observation of frame ≥ 30 always leaves
`played_30f` set (whether or not the cue fires). -/
lemma tick_qualifying_played (m : Bool) (e : Rat) (s : HoldState)
    (hp : processed e s) (h30 : 30 ≤ castI32toU32 (frameI32 e))
    (hm : m = false) :
    (frame_loop_tick m e s).state.played_30f = true := by
  cases hpl : s.played_30f with
  | true => exact tick_played_mono _ _ _ hpl
  | false =>
    obtain ⟨hh, hst, hne, hnn⟩ := hp
    obtain ⟨t, ht⟩ := Option.isSome_iff_exists.mp hst
    subst hm
    unfold frame_loop_tick threshold_step
    dsimp only
    rw [hh, ht]
    simp only [if_pos (And.intro hne hnn)]
    repeat' split
    all_goals simp_all

/-- A positive threshold count means the threshold cue is in the queue. -/
lemma mem_of_countThr_pos (l : List AudioCmd) (h : 0 < countThr l) :
    thresholdCue ∈ l := by
  unfold countThr at h
  obtain ⟨a, ha, hp⟩ := List.countP_pos_iff.mp h
  rw [decide_eq_true_iff] at hp
  exact hp ▸ ha

/-! Helper lemmas about running a list of ticks. -/

/-- Running ticks mutates `holding` never. -/
lemma run_holding (ticks : List TickIn) (s : HoldState) :
    (run_ticks s ticks).state.holding = s.holding := by
  induction ticks generalizing s with
  | nil => rfl
  | cons t rest ih =>
    simp only [run_ticks]
    rw [ih, tick_holding]

/-- Running ticks mutates `start` never. -/
lemma run_start (ticks : List TickIn) (s : HoldState) :
    (run_ticks s ticks).state.start = s.start := by
  induction ticks generalizing s with
  | nil => rfl
  | cons t rest ih =>
    simp only [run_ticks]
    rw [ih, tick_start]

/-- Running ticks never clears `played_30f`. -/
lemma run_played_mono (ticks : List TickIn) (s : HoldState)
    (h : s.played_30f = true) :
    (run_ticks s ticks).state.played_30f = true := by
  induction ticks generalizing s with
  | nil => exact h
  | cons t rest ih =>
    simp only [run_ticks]
    exact ih _ (tick_played_mono _ _ _ h)

/-- Once `played_30f` is set, no later tick of the hold queues the
threshold cue. -/
lemma run_countThr_of_played (ticks : List TickIn) (s : HoldState)
    (h : s.played_30f = true) :
    countThr (run_ticks s ticks).audio = 0 := by
  induction ticks generalizing s with
  | nil => rfl
  | cons t rest ih =>
    simp only [run_ticks, countThr_append]
    rw [tick_countThr_of_played _ _ _ h, ih _ (tick_played_mono _ _ _ h)]

/-- Any run of ticks queues the threshold cue at most once. -/
lemma run_countThr_le_one (ticks : List TickIn) (s : HoldState) :
    countThr (run_ticks s ticks).audio ≤ 1 := by
  induction ticks generalizing s with
  | nil => exact Nat.zero_le 1
  | cons t rest ih =>
    simp only [run_ticks, countThr_append]
    rcases Nat.eq_zero_or_pos
        (countThr (frame_loop_tick t.muted t.elapsed s).audio) with h0 | hpos
    · rw [h0]
      simpa using ih (frame_loop_tick t.muted t.elapsed s).state
    · have hmem := mem_of_countThr_pos _ hpos
      have hsent : thrSent (frame_loop_tick t.muted t.elapsed s) = true := by
        unfold thrSent
        exact decide_eq_true hmem
      have hpl := tick_thrSent_played _ _ _ hsent
      rw [run_countThr_of_played _ _ hpl]
      simpa using tick_countThr_le_one t.muted t.elapsed s

/-- After a qualifying observation somewhere in the run, `played_30f` ends
up set. -/
lemma run_existsQualifying_played (ticks : List TickIn) (s : HoldState)
    (hh : s.holding = true) (hst : s.start.isSome = true)
    (hq : existsQualifying s ticks = true) :
    (run_ticks s ticks).state.played_30f = true := by
  induction ticks generalizing s with
  | nil => exact absurd hq (by simp [existsQualifying])
  | cons t rest ih =>
    simp only [run_ticks]
    unfold existsQualifying at hq
    rcases Bool.or_eq_true _ _ |>.mp hq with hq1 | hq2
    · have hq1' := hq1
      unfold qualifies at hq1'
      rw [Bool.and_eq_true, decide_eq_true_iff, Bool.not_eq_true'] at hq1'
      obtain ⟨⟨hne, hnn, h30⟩, hm⟩ := hq1'
      exact run_played_mono _ _
        (tick_qualifying_played _ _ _ ⟨hh, hst, hne, hnn⟩ h30 hm)
    · exact ih _ (by rw [tick_holding]; exact hh)
        (by rw [tick_start]; exact hst) hq2

/-! Numeric facts about the frame computations. -/

/-- The frame duration is positive. -/
lemma FRAME_MS_pos : 0 < FRAME_MS := by norm_num [FRAME_MS]

/-- Non-negative elapsed time gives a non-negative sampled frame. -/
lemma frameI32_nonneg (e : Rat) (h : 0 ≤ e) : 0 ≤ frameI32 e := by
  unfold frameI32
  exact le_min (Int.floor_nonneg.mpr (div_nonneg h FRAME_MS_pos.le))
    (by norm_num [i32max])

/-- The sampled frame never exceeds the `i32` saturation bound. -/
lemma frameI32_le_i32max (e : Rat) : frameI32 e ≤ i32max :=
  min_le_right _ _

/-- The sampled frame is monotone in elapsed time. -/
lemma frameI32_mono {e e' : Rat} (h : e ≤ e') : frameI32 e ≤ frameI32 e' := by
  unfold frameI32
  refine min_le_min (Int.floor_le_floor ?_) le_rfl
  exact (div_le_div_iff_of_pos_right FRAME_MS_pos).mpr h

/-- For an in-range value the `i32 as u32` cast is the identity. -/
lemma castI32toU32_int (n : Int) (h0 : 0 ≤ n) (h1 : n ≤ i32max) :
    (castI32toU32 n : Int) = n := by
  unfold castI32toU32
  rw [Int.emod_eq_of_lt h0 (by unfold i32max at h1; omega)]
  exact Int.toNat_of_nonneg h0

/-- Sampled frame at 520 ms: floor(520 / (1000/60)) = floor(31.2) = 31. -/
lemma frameI32_520 : frameI32 520 = 31 := by
  norm_num [frameI32, FRAME_MS, i32max, Int.floor_eq_iff]

/-- Sampled frame at 540 ms: floor(32.4) = 32. -/
lemma frameI32_540 : frameI32 540 = 32 := by
  norm_num [frameI32, FRAME_MS, i32max, Int.floor_eq_iff]

/-- Sampled frame at 10 ms: floor(0.6) = 0. -/
lemma frameI32_10 : frameI32 10 = 0 := by
  norm_num [frameI32, FRAME_MS, i32max, Int.floor_eq_iff]

/-- Sampled frame at 40 ms: floor(2.4) = 2. -/
lemma frameI32_40 : frameI32 40 = 2 := by
  norm_num [frameI32, FRAME_MS, i32max, Int.floor_eq_iff]

/-- Final frame at 10 ms: round(0.6) = 1 (where the floor is 0). -/
lemma final_frame_10 : final_frame 10 = 1 := by
  have h : ⌊(10 : Rat) / FRAME_MS + 1 / 2⌋ = 1 := by
    norm_num [FRAME_MS, Int.floor_eq_iff]
  norm_num [final_frame, u32max, h]

/-- Final frame at 500 ms: round(30.0) = 30. -/
lemma final_frame_500 : final_frame 500 = 30 := by
  have h : ⌊(500 : Rat) / FRAME_MS + 1 / 2⌋ = 30 := by
    norm_num [FRAME_MS, Int.floor_eq_iff]
  norm_num [final_frame, u32max, h]
  decide

/-- C3 (evaluation at the failing input): a muted tick that observes a zone
change (Mid → Large) on the same tick as the first frame ≥ 30 (elapsed
520 ms, frame 31) updates `last_zone` but — contrary to the claim — leaves
`played_30f` false, because the muted zone-change branch's `continue` skips
the threshold block; a later unmuted tick (frame 32, zone unchanged) then
retroactively queues the threshold cue. -/
theorem muted_zone_change_skips_threshold_marking :
    frame_loop_tick true 520
        ⟨true, some 0, 24, Zone.mid, false⟩ =
      ⟨⟨true, some 0, 31, Zone.large, false⟩, [HudEvent.progress 31], []⟩ ∧
    thrSent (frame_loop_tick false 540
        ⟨true, some 0, 31, Zone.large, false⟩) = true := by
  constructor
  · simp [frame_loop_tick, threshold_step, frameI32_520, castI32toU32, get_zone]
  · have h : frame_loop_tick false 540
        ⟨true, some 0, 31, Zone.large, false⟩ =
        ⟨⟨true, some 0, 32, Zone.large, true⟩, [HudEvent.progress 32],
          [thresholdCue]⟩ := by
      simp [frame_loop_tick, threshold_step, frameI32_540, castI32toU32,
        get_zone, thresholdCue]
    rw [h]
    decide

/-- C4: within one hold (press, then any tick sequence), the threshold cue is
queued at most once; and a tick that queues it is unmuted, observes a frame
≥ 30, and no earlier tick of the hold was a qualifying (new-frame, frame ≥
30, unmuted) observation. -/
theorem threshold_cue_once (t0 : Rat) (ticks : List TickIn) :
    countThr (run_ticks (hold_start t0) ticks).audio ≤ 1 ∧
    (∀ pre t post, ticks = pre ++ t :: post →
      thrSent (frame_loop_tick t.muted t.elapsed
        (run_ticks (hold_start t0) pre).state) = true →
      t.muted = false ∧ 30 ≤ castI32toU32 (frameI32 t.elapsed) ∧
        existsQualifying (hold_start t0) pre = false) := by
  refine ⟨run_countThr_le_one _ _, ?_⟩
  intro pre t post heq hsent
  obtain ⟨hp, h30, hm, hpl⟩ := tick_thrSent_qualifies _ _ _ hsent
  refine ⟨hm, h30, ?_⟩
  cases hex : existsQualifying (hold_start t0) pre with
  | false => rfl
  | true =>
    have hpld := run_existsQualifying_played pre (hold_start t0) rfl rfl hex
    rw [hpld] at hpl
    exact absurd hpl (by decide)

/-- Witness for C4 at a concrete hold: a single unmuted tick at 520 ms
(frame 31) queues the cue, and the hypotheses hold there. -/
theorem threshold_cue_once_witness :
    countThr (run_ticks (hold_start 0) [⟨false, 520⟩]).audio ≤ 1 ∧
    ((false : Bool) = false ∧ 30 ≤ castI32toU32 (frameI32 520) ∧
      existsQualifying (hold_start 0) [] = false) := by
  have h := threshold_cue_once 0 [⟨false, 520⟩]
  refine ⟨h.1, h.2 [] ⟨false, 520⟩ [] rfl ?_⟩
  have ht : frame_loop_tick false 520 (hold_start 0) =
      ⟨⟨true, some 0, 31, Zone.large, true⟩, [HudEvent.progress 31],
        [⟨340, 40⟩, thresholdCue]⟩ := by
    simp [frame_loop_tick, threshold_step, hold_start, frameI32_520,
      castI32toU32, get_zone, thresholdCue, zoneCue]
  have hpre : (run_ticks (hold_start 0) []).state = hold_start 0 := rfl
  rw [show (⟨false, 520⟩ : TickIn).muted = false from rfl,
    show (⟨false, 520⟩ : TickIn).elapsed = 520 from rfl, hpre, ht]
  decide

/-- `progress_frames` distributes over concatenation. -/
lemma progress_frames_append (a b : List HudEvent) :
    progress_frames (a ++ b) = progress_frames a ++ progress_frames b := by
  unfold progress_frames
  exact List.filterMap_append _ _ _

/-- A run's emitted progress frames, seen as integers and prefixed with the
starting `last_frame`, form a strictly increasing chain, provided the tick
elapsed times are monotone and every sampled frame is at least the starting
`last_frame`. -/
lemma run_chain (ticks : List TickIn) (s : HoldState)
    (hmono : ticks.Pairwise fun a b => a.elapsed ≤ b.elapsed)
    (hlast : ∀ t ∈ ticks, s.last_frame ≤ frameI32 t.elapsed) :
    List.Chain' (· < ·) (s.last_frame ::
      (progress_frames (run_ticks s ticks).events).map
        (Nat.cast : Nat → Int)) := by
  induction ticks generalizing s with
  | nil => simp [run_ticks, progress_frames]
  | cons t rest ih =>
    rw [List.pairwise_cons] at hmono
    obtain ⟨hmhead, hmrest⟩ := hmono
    by_cases hp : processed t.elapsed s
    · have hev := tick_processed_events t.muted t.elapsed s hp
      have hlf := tick_processed_last_frame t.muted t.elapsed s hp
      have hcast : ((castI32toU32 (frameI32 t.elapsed)) : Int) =
          frameI32 t.elapsed :=
        castI32toU32_int _ hp.2.2.2 (frameI32_le_i32max _)
      have hrest := ih (frame_loop_tick t.muted t.elapsed s).state hmrest
        (by
          rw [hlf]
          exact fun t' ht' => frameI32_mono (hmhead t' ht'))
      rw [hlf] at hrest
      simp only [run_ticks, progress_frames_append, List.map_append, hev]
      have hsingle : progress_frames [HudEvent.progress
          (castI32toU32 (frameI32 t.elapsed))] =
          [castI32toU32 (frameI32 t.elapsed)] := rfl
      rw [hsingle]
      simp only [List.map_cons, List.map_nil, List.singleton_append,
        List.chain'_cons]
      constructor
      · rw [hcast]
        have h1 := hlast t (List.mem_cons_self t rest)
        have h2 := hp.2.2.1
        omega
      · rw [hcast]
        exact hrest
    · have hno := tick_of_not_processed t.muted t.elapsed s hp
      simp only [run_ticks, hno, List.nil_append]
      exact ih s hmrest fun t' ht' => hlast t' (List.mem_cons_of_mem t ht')

/-- The release handler, on a holding state with a start timestamp, emits
exactly the terminal `hud-update` with the rounded frame count. -/
lemma release_events (now : Rat) (m : Bool) (s : HoldState) (t : Rat)
    (hh : s.holding = true) (hst : s.start = some t) :
    (release_action now m s).events =
      [HudEvent.update (final_frame (now - t))] := by
  simp [release_action, hh, hst]

/-- C6: within one hold with monotone elapsed times, the `hud-progress`
frames are emitted in strictly increasing order, all are ≥ 0, and for the
full hold the terminal `hud-update` is the last event emitted. -/
theorem progress_strictly_increasing_update_last (t0 : Rat)
    (ticks : List TickIn) (t_rel : Rat) (muted : Bool)
    (hmono : ticks.Pairwise fun a b => a.elapsed ≤ b.elapsed)
    (hnn : ∀ t ∈ ticks, 0 ≤ t.elapsed) :
    List.Chain' (· < ·)
      (progress_frames (run_ticks (hold_start t0) ticks).events) ∧
    (∀ f ∈ progress_frames (run_ticks (hold_start t0) ticks).events,
      0 ≤ f) ∧
    hold_events t0 ticks t_rel muted =
      (run_ticks (hold_start t0) ticks).events ++
        [HudEvent.update (final_frame (t_rel - t0))] := by
  have hchain := run_chain ticks (hold_start t0) hmono (fun t ht => by
    have h := frameI32_nonneg t.elapsed (hnn t ht)
    show (-1 : Int) ≤ frameI32 t.elapsed
    omega)
  refine ⟨?_, fun f _ => Nat.zero_le f, ?_⟩
  · have htail : List.Chain' (· < ·)
        ((progress_frames (run_ticks (hold_start t0) ticks).events).map
          (Nat.cast : Nat → Int)) := hchain.tail
    rw [List.chain'_map] at htail
    exact htail.imp fun a b hab => Nat.cast_lt.mp hab
  · unfold hold_events
    dsimp only
    rw [release_events t_rel muted (run_ticks (hold_start t0) ticks).state t0
      (by rw [run_holding]; rfl) (by rw [run_start]; rfl)]

/-- Witness for C6 at a concrete hold: two unmuted ticks at 10 ms and 40 ms,
released at 500 ms. -/
theorem progress_strictly_increasing_update_last_witness :
    List.Chain' (· < ·)
      (progress_frames
        (run_ticks (hold_start 0) [⟨false, 10⟩, ⟨false, 40⟩]).events) ∧
    (∀ f ∈ progress_frames
        (run_ticks (hold_start 0) [⟨false, 10⟩, ⟨false, 40⟩]).events,
      0 ≤ f) ∧
    hold_events 0 [⟨false, 10⟩, ⟨false, 40⟩] 500 false =
      (run_ticks (hold_start 0) [⟨false, 10⟩, ⟨false, 40⟩]).events ++
        [HudEvent.update (final_frame (500 - 0))] := by
  apply progress_strictly_increasing_update_last
  · refine List.Pairwise.cons (fun b hb => ?_) (List.pairwise_singleton _ _)
    fin_cases hb
    norm_num
  · intro t ht
    fin_cases ht <;> norm_num

/-- C2 (counterexample): no mouse listener thread is spawned, and a
left-mouse-button press delivered to the (only) `rdev` callback — the
keyboard listener's — falls into its `_ => {}` arm: it starts no hold,
changes no state, emits nothing and queues no audio. -/
theorem mouse_press_starts_no_hold :
    keyboard_callback 0 false (RdevEventType.buttonPress RButton.left)
        HoldState.default =
      ⟨HoldState.default, [], []⟩ ∧
    HoldState.default.holding = false ∧
    ThreadKind.mouseListener ∉ spawned_threads := by
  refine ⟨rfl, rfl, ?_⟩
  decide

/-- C2 (amended): the core runs two input listeners — keyboard space key and
gamepad south button — and each drives the same press/release protocol
(`press_action` / `release_action`) against the one shared `HoldState`;
left-mouse-button presses and releases are ignored and no mouse listener
exists. -/
theorem two_listeners_drive_same_protocol :
    (∀ (t : Rat) (m : Bool) (s : HoldState),
      keyboard_callback t m (RdevEventType.keyPress RKey.space) s =
        ⟨press_action t s, [], []⟩) ∧
    (∀ (t : Rat) (m : Bool) (s : HoldState),
      keyboard_callback t m (RdevEventType.keyRelease RKey.space) s =
        release_action t m s) ∧
    (∀ (t : Rat) (m : Bool) (s : HoldState),
      gamepad_callback t m (GilEventType.buttonPressed GButton.south) s =
        ⟨press_action t s, [], []⟩) ∧
    (∀ (t : Rat) (m : Bool) (s : HoldState),
      gamepad_callback t m (GilEventType.buttonReleased GButton.south) s =
        release_action t m s) ∧
    (∀ (t : Rat) (m : Bool) (b : RButton) (s : HoldState),
      keyboard_callback t m (RdevEventType.buttonPress b) s = ⟨s, [], []⟩) ∧
    (∀ (t : Rat) (m : Bool) (b : RButton) (s : HoldState),
      keyboard_callback t m (RdevEventType.buttonRelease b) s =
        ⟨s, [], []⟩) ∧
    ThreadKind.mouseListener ∉ spawned_threads := by
  refine ⟨fun t m s => rfl, fun t m s => rfl, fun t m s => rfl,
    fun t m s => rfl, fun t m b s => ?_, fun t m b s => ?_, by decide⟩
  · cases b <;> rfl
  · cases b <;> rfl

/-- C8 (counterexample): with failed audio-device initialization the process
does not abort startup — it stays alive, only the audio thread is dead. -/
theorem audio_init_failure_not_fatal :
    (startup false).processAlive = true ∧
    (startup false).audioThread = ThreadStatus.dead := by
  decide

/-- C8 (amended): audio-device initialization failure panics only inside the
spawned audio worker thread; the process survives startup with every other
thread running and continues in a silent, degraded mode. On success the
audio thread runs. -/
theorem audio_init_failure_kills_only_audio_thread :
    (startup false).processAlive = true ∧
    (startup false).audioThread = ThreadStatus.dead ∧
    (startup false).frameLoopThread = ThreadStatus.running ∧
    (startup false).keyboardThread = ThreadStatus.running ∧
    (startup false).gamepadThread = ThreadStatus.running ∧
    (startup true).audioThread = ThreadStatus.running := by
  decide

/-- C5: live progress uses floor, the terminal measurement uses round
(not truncation) of the same elapsed-to-frame conversion; the release
handler emits the rounded frame, and at 10 ms elapsed floor (0) and round
(1) actually differ. -/
theorem live_floor_final_round :
    (∀ e : Rat, ⌊e / FRAME_MS⌋ ≤ i32max → frameI32 e = ⌊e / FRAME_MS⌋) ∧
    (∀ e : Rat, 0 ≤ e → ⌊e / FRAME_MS + 1 / 2⌋ ≤ (u32max : Int) →
      (final_frame e : Int) = round (e / FRAME_MS)) ∧
    (∀ (t now : Rat) (m : Bool) (s : HoldState), s.holding = true →
      s.start = some t →
      (release_action now m s).events =
        [HudEvent.update (final_frame (now - t))]) ∧
    frameI32 10 = 0 ∧ final_frame 10 = 1 := by
  refine ⟨fun e h => min_eq_left h, fun e he hle => ?_,
    fun t now m s hh hst => release_events now m s t hh hst,
    frameI32_10, final_frame_10⟩
  have h0 : 0 ≤ ⌊e / FRAME_MS + 1 / 2⌋ := by
    refine Int.floor_nonneg.mpr ?_
    have : 0 ≤ e / FRAME_MS := div_nonneg he FRAME_MS_pos.le
    linarith
  unfold final_frame
  rw [round_eq, Nat.cast_min, Int.toNat_of_nonneg h0]
  exact min_eq_left hle

/-- Witness for C5 at 10 ms and 500 ms elapsed, and a concrete release. -/
theorem live_floor_final_round_witness :
    frameI32 10 = ⌊(10 : Rat) / FRAME_MS⌋ ∧
    (final_frame 500 : Int) = round ((500 : Rat) / FRAME_MS) ∧
    (release_action 500 false (hold_start 0)).events =
      [HudEvent.update (final_frame (500 - 0))] := by
  have h := live_floor_final_round
  have h10 : ⌊(10 : Rat) / FRAME_MS⌋ = 0 := by
    norm_num [FRAME_MS, Int.floor_eq_iff]
  have h500 : ⌊(500 : Rat) / FRAME_MS + 1 / 2⌋ = 30 := by
    norm_num [FRAME_MS, Int.floor_eq_iff]
  refine ⟨h.1 10 (by rw [h10]; norm_num [i32max]),
    h.2.1 500 (by norm_num) (by rw [h500]; norm_num [u32max]),
    h.2.2.1 0 500 false (hold_start 0) rfl rfl⟩

/-- C7: duplicate input signals are absorbed as no-ops by every listener —
a press while holding and a release while idle leave the state untouched,
emit no event and queue no audio. -/
theorem duplicate_inputs_are_noops :
    (∀ (t : Rat) (m : Bool) (s : HoldState), s.holding = true →
      keyboard_callback t m (RdevEventType.keyPress RKey.space) s =
        ⟨s, [], []⟩) ∧
    (∀ (t : Rat) (m : Bool) (s : HoldState), s.holding = true →
      gamepad_callback t m (GilEventType.buttonPressed GButton.south) s =
        ⟨s, [], []⟩) ∧
    (∀ (t : Rat) (m : Bool) (s : HoldState), s.holding = false →
      keyboard_callback t m (RdevEventType.keyRelease RKey.space) s =
        ⟨s, [], []⟩) ∧
    (∀ (t : Rat) (m : Bool) (s : HoldState), s.holding = false →
      gamepad_callback t m (GilEventType.buttonReleased GButton.south) s =
        ⟨s, [], []⟩) := by
  refine ⟨fun t m s h => ?_, fun t m s h => ?_, fun t m s h => ?_,
    fun t m s h => ?_⟩
  all_goals
    simp [keyboard_callback, gamepad_callback, press_action, release_action, h]

/-- Witness for C7: a duplicate press on an active hold and a stray release
on the idle default state. -/
theorem duplicate_inputs_are_noops_witness :
    keyboard_callback 0 false (RdevEventType.keyPress RKey.space)
        (hold_start 0) = ⟨hold_start 0, [], []⟩ ∧
    gamepad_callback 0 false (GilEventType.buttonPressed GButton.south)
        (hold_start 0) = ⟨hold_start 0, [], []⟩ ∧
    keyboard_callback 0 false (RdevEventType.keyRelease RKey.space)
        HoldState.default = ⟨HoldState.default, [], []⟩ ∧
    gamepad_callback 0 false (GilEventType.buttonReleased GButton.south)
        HoldState.default = ⟨HoldState.default, [], []⟩ := by
  have h := duplicate_inputs_are_noops
  exact ⟨h.1 0 false _ rfl, h.2.1 0 false _ rfl, h.2.2.1 0 false _ rfl,
    h.2.2.2 0 false _ rfl⟩

/-- The HoldState invariant of C9: holding exactly when a start timestamp is
present. -/
def holdInv (s : HoldState) : Prop :=
  s.holding = true ↔ s.start.isSome = true

/-- C9: the invariant `holding ↔ start present` holds initially and is
preserved by press, release, and every sampling tick; the timestamp is set
exactly at a press from idle and cleared exactly at a release from holding. -/
theorem holding_iff_start_some :
    holdInv HoldState.default ∧
    (∀ (t : Rat) (s : HoldState), holdInv s → holdInv (press_action t s)) ∧
    (∀ (t : Rat) (m : Bool) (s : HoldState), holdInv s →
      holdInv (release_action t m s).state) ∧
    (∀ (m : Bool) (e : Rat) (s : HoldState), holdInv s →
      holdInv (frame_loop_tick m e s).state) ∧
    (∀ (t : Rat) (s : HoldState), s.holding = false →
      (press_action t s).start = some t) ∧
    (∀ (t : Rat) (m : Bool) (s : HoldState), s.holding = true →
      (release_action t m s).state.start = Option.none) := by
  refine ⟨by simp [holdInv, HoldState.default], fun t s h => ?_,
    fun t m s h => ?_, fun m e s h => ?_, fun t s h => ?_, fun t m s h => ?_⟩
  · unfold holdInv press_action at *
    split <;> simp_all
  · unfold holdInv release_action at *
    split <;> simp_all
  · unfold holdInv at *
    rw [tick_holding, tick_start]
    exact h
  · simp [press_action, h]
  · simp [release_action, h]

/-- Witness for C9 along one concrete press → tick → release cycle. -/
theorem holding_iff_start_some_witness :
    holdInv (press_action 0 HoldState.default) ∧
    holdInv (frame_loop_tick false 10 (hold_start 0)).state ∧
    holdInv (release_action 500 false (hold_start 0)).state ∧
    (press_action 0 HoldState.default).start = some 0 ∧
    (release_action 500 false (hold_start 0)).state.start = Option.none := by
  have h := holding_iff_start_some
  have hinv : holdInv (hold_start 0) := by simp [holdInv, hold_start]
  exact ⟨h.2.1 0 _ h.1, h.2.2.2.1 false 10 _ hinv, h.2.2.1 500 false _ hinv,
    h.2.2.2.2.1 0 _ rfl, h.2.2.2.2.2 500 false _ rfl⟩

/-- C10: for the non-negative elapsed times a hold can produce, the sampled
frame is non-negative and within `i32` range, the `i32 as u32` cast of it is
the identity (no wraparound), and every tick either emits nothing or emits
exactly the progress event carrying that cast frame. -/
theorem frame_cast_never_wraps (e : Rat) (he : 0 ≤ e) :
    0 ≤ frameI32 e ∧ frameI32 e ≤ i32max ∧
    (castI32toU32 (frameI32 e) : Int) = frameI32 e ∧
    ∀ (m : Bool) (s : HoldState),
      (frame_loop_tick m e s).events = [] ∨
      (frame_loop_tick m e s).events =
        [HudEvent.progress (castI32toU32 (frameI32 e))] := by
  refine ⟨frameI32_nonneg e he, frameI32_le_i32max e,
    castI32toU32_int _ (frameI32_nonneg e he) (frameI32_le_i32max e),
    fun m s => ?_⟩
  by_cases hp : processed e s
  · exact Or.inr (tick_processed_events m e s hp)
  · exact Or.inl (by rw [tick_of_not_processed m e s hp])

/-- Witness for C10 at 520 ms elapsed. -/
theorem frame_cast_never_wraps_witness :
    0 ≤ frameI32 520 ∧ frameI32 520 ≤ i32max ∧
    (castI32toU32 (frameI32 520) : Int) = frameI32 520 ∧
    ∀ (m : Bool) (s : HoldState),
      (frame_loop_tick m 520 s).events = [] ∨
      (frame_loop_tick m 520 s).events =
        [HudEvent.progress (castI32toU32 (frameI32 520))] :=
  frame_cast_never_wraps 520 (by norm_num)

end JKFT
